import Mathlib

/-
  Verification development for the tradingservices repository.

  Shallow embedding of the strategy state machines in
  src/App/pnlgap/strategy.py, src/App/simpletrends/strategy.py,
  src/App/breakeven/strategy.py and src/App/advancedpnl/strategy.py.
  Prices and quantities are Python Decimal values, modelled as rationals.
-/

namespace Trading

/-! ## Shared data model -/

/-- Entry in the per-side open-orders cache
(`open_orders_cache` dict entries built in `handle_order_fill`). -/
structure CacheOrder where
  id : Nat
  side : String
  order_id : String
  quantity : ℚ
  entry_price : ℚ
  deriving DecidableEq

/-- Row of the orders table (simple_trends_orders /
advancedpnl_simpletrends_orders) as used by the strategies. -/
structure DbOrder where
  id : Nat
  side : String
  quantity : ℚ
  entry_price : ℚ
  order_id : String
  status : String
  exit_price : Option ℚ
  profit_usdt : Option ℚ
  close_reason : Option String
  stop_loss_order_id : Option String
  trailing_stop_order_id : Option String
  deriving DecidableEq

/-- ORDER_TRADE_UPDATE payload fields read by `handle_order_fill`. -/
structure FillEvent where
  i : String
  X : String
  o : String
  ot : String
  ps : String
  S : String
  ap : ℚ
  z : ℚ
  rp : ℚ
  deriving DecidableEq

/-- ACCOUNT_UPDATE position payload fields read by
`update_position_entry_price`. -/
structure PosUpdate where
  ps : String
  ep : Option ℚ
  bep : Option ℚ
  pa : ℚ
  cr : Option ℚ
  deriving DecidableEq

/-- Externally visible effects of the fill handlers: protective-order
submissions (performed by `_create_stop_orders` tasks), cancellations,
database close operations and breakeven-cache refreshes. -/
inductive Act where
  | submitStopLoss : ℚ → Act
  | submitTrailing : ℚ → Act
  | cancelOrder : String → Act
  | closeOrderRec : Nat → String → Act
  | refreshCache : Act
  deriving DecidableEq

/-! ## List minimum / maximum (Python min()/max() on nonempty lists) -/

/-- Minimum of x and the elements of a list, as Python min([x, ...]). -/
def listMinQ (x : ℚ) : List ℚ → ℚ
  | [] => x
  | y :: ys => listMinQ (min x y) ys

/-- Maximum of x and the elements of a list, as Python max([x, ...]). -/
def listMaxQ (x : ℚ) : List ℚ → ℚ
  | [] => x
  | y :: ys => listMaxQ (max x y) ys

/-! ## Order-block spacing checks -/

/-- Forward-block test shared by the _check_order_block variants: with a
nonempty forward group, fail when the block distance is positive and the
closest entry price above is nearer than it. -/
def forwardFailCheck (block : ℚ) (forward_orders : List ℚ) (current_price : ℚ) : Bool :=
  match forward_orders with
  | [] => false
  | p :: ps =>
    decide (0 < block) && decide (listMinQ p ps - current_price < block)

/-- Backward-block test shared by the _check_order_block variants. -/
def backwardFailCheck (block : ℚ) (backward_orders : List ℚ) (current_price : ℚ) : Bool :=
  match backward_orders with
  | [] => false
  | p :: ps =>
    decide (0 < block) && decide (current_price - listMaxQ p ps < block)

/-- SimpleTrendsStrategy._check_order_block (strategy.py lines 92-121):
strict comparisons when splitting cached same-side orders into the
forward (above) and backward (below) groups. -/
def stCheckOrderBlock (forward_order_block_price backward_order_block_price : ℚ)
    (same_side_orders : List CacheOrder) (current_price : ℚ) : Bool :=
  if forward_order_block_price = 0 ∧ backward_order_block_price = 0 then true
  else if same_side_orders.isEmpty then true
  else if forwardFailCheck forward_order_block_price
      ((same_side_orders.map (fun o => o.entry_price)).filter
        (fun p => decide (current_price < p))) current_price then false
  else if backwardFailCheck backward_order_block_price
      ((same_side_orders.map (fun o => o.entry_price)).filter
        (fun p => decide (p < current_price))) current_price then false
  else true

/-- BreakevenStrategy._check_order_block (strategy.py lines 124-153):
same algorithm over the entry prices of the open orders fetched from the
database. -/
def bkCheckOrderBlock (forward_order_block_price backward_order_block_price : ℚ)
    (open_order_prices : List ℚ) (current_price : ℚ) : Bool :=
  if forward_order_block_price = 0 ∧ backward_order_block_price = 0 then true
  else if open_order_prices.isEmpty then true
  else if forwardFailCheck forward_order_block_price
      (open_order_prices.filter (fun p => decide (current_price < p)))
      current_price then false
  else if backwardFailCheck backward_order_block_price
      (open_order_prices.filter (fun p => decide (p < current_price)))
      current_price then false
  else true

/-- AdvancedPnlStrategy._check_st_order_block (strategy.py lines 698-726):
same structure but with inclusive comparisons, so an order at exactly the
current price lands in both groups. -/
def apCheckStOrderBlock (st_forward_order_block_value st_backward_order_block_value : ℚ)
    (same_side_orders : List CacheOrder) (current_price : ℚ) : Bool :=
  if st_forward_order_block_value = 0 ∧ st_backward_order_block_value = 0 then true
  else if same_side_orders.isEmpty then true
  else if forwardFailCheck st_forward_order_block_value
      ((same_side_orders.map (fun o => o.entry_price)).filter
        (fun p => decide (current_price ≤ p))) current_price then false
  else if backwardFailCheck st_backward_order_block_value
      ((same_side_orders.map (fun o => o.entry_price)).filter
        (fun p => decide (p ≤ current_price))) current_price then false
  else true

/-! ## PnlGrid (pnlgap) entry signals -/

/-- Rolling extremes of a pnlgap period. -/
structure PnlgapEntryState where
  min_price : ℚ
  max_price : ℚ
  deriving DecidableEq

/-- PnlGridStrategy._check_entry_signals (strategy.py lines 189-212).
Returns the updated extremes together with the sides for which a market
entry order was submitted.  The leading guard is Python
`not all([min_price, max_price, order_threshold_value])` (a Decimal is
falsy exactly when it is zero). -/
def pnlgapCheckEntrySignals (order_threshold_value : ℚ) (s : PnlgapEntryState)
    (mark_price : ℚ) : PnlgapEntryState × List String :=
  if s.min_price = 0 ∨ s.max_price = 0 ∨ order_threshold_value = 0 then (s, [])
  else
    let long_trigger := s.max_price + order_threshold_value
    let longPart : ℚ × List String :=
      if long_trigger ≤ mark_price then (mark_price, ["LONG"]) else (s.max_price, [])
    let short_trigger := s.min_price - order_threshold_value
    let shortPart : ℚ × List String :=
      if mark_price ≤ short_trigger then (mark_price, ["SHORT"]) else (s.min_price, [])
    (⟨shortPart.1, longPart.1⟩, longPart.2 ++ shortPart.2)

/-- Iterated pnlgap ticks from a given state (the 1-second polling loop
between two period resets; pnlgap has no separate observe step). -/
def pnlgapRun (order_threshold_value : ℚ) (s : PnlgapEntryState) :
    List ℚ → PnlgapEntryState
  | [] => s
  | p :: ps => pnlgapRun order_threshold_value
      (pnlgapCheckEntrySignals order_threshold_value s p).1 ps

/-! ## SimpleTrends entry signals -/

/-- Configuration read by SimpleTrendsStrategy._check_entry_signals,
with threshold and block distances already converted to absolute price
values at initialization (_calculate_thresholds). -/
structure StConfig where
  long_enabled : Bool
  short_enabled : Bool
  long_margin_limit : Option ℚ
  short_margin_limit : Option ℚ
  long_order_limit : Nat
  short_order_limit : Nat
  forward_order_block_price : ℚ
  backward_order_block_price : ℚ
  order_threshold_price : ℚ
  deriving DecidableEq

/-- Mutable state touched by the SimpleTrends tick: the extremes plus the
per-side open-orders cache. -/
structure StEntryState where
  min_price : ℚ
  max_price : ℚ
  cache_long : List CacheOrder
  cache_short : List CacheOrder
  deriving DecidableEq

/-- SimpleTrendsStrategy._update_min_max (strategy.py lines 270-276). -/
def stUpdateMinMax (s : StEntryState) (mark_price : ℚ) : StEntryState :=
  let s1 := if mark_price < s.min_price then { s with min_price := mark_price } else s
  if s1.max_price < mark_price then { s1 with max_price := mark_price } else s1

/-- SimpleTrendsStrategy._check_entry_signals (strategy.py lines 278-326).
The LONG branch triggers on mark_price ≥ min_price + order_threshold_price
and ratchets min_price to mark_price before the margin-limit, order-limit
and order-block suppression checks; the SHORT branch is symmetric on
max_price.  The returned list is the sides for which _open_position ran. -/
def stCheckEntrySignals (cfg : StConfig) (s : StEntryState)
    (mark_price last_trade_price0 : ℚ) : StEntryState × List String :=
  if s.min_price = 0 ∨ s.max_price = 0 ∨ cfg.order_threshold_price = 0 then (s, [])
  else
    let last_trade_price := if last_trade_price0 = 0 then mark_price else last_trade_price0
    let longPart : ℚ × List String :=
      if cfg.long_enabled then
        if s.min_price + cfg.order_threshold_price ≤ mark_price then
          let marginBlocked : Bool :=
            match cfg.long_margin_limit with
            | some m => decide (m < mark_price)
            | none => false
          if marginBlocked then (mark_price, [])
          else if cfg.long_order_limit ≤ s.cache_long.length then (mark_price, [])
          else if stCheckOrderBlock cfg.forward_order_block_price
              cfg.backward_order_block_price s.cache_long last_trade_price then
            (mark_price, ["LONG"])
          else (mark_price, [])
        else (s.min_price, [])
      else (s.min_price, [])
    let shortPart : ℚ × List String :=
      if cfg.short_enabled then
        if mark_price ≤ s.max_price - cfg.order_threshold_price then
          let marginBlocked : Bool :=
            match cfg.short_margin_limit with
            | some m => decide (mark_price < m)
            | none => false
          if marginBlocked then (mark_price, [])
          else if cfg.short_order_limit ≤ s.cache_short.length then (mark_price, [])
          else if stCheckOrderBlock cfg.forward_order_block_price
              cfg.backward_order_block_price s.cache_short last_trade_price then
            (mark_price, ["SHORT"])
          else (mark_price, [])
        else (s.max_price, [])
      else (s.max_price, [])
    ({ s with min_price := longPart.1, max_price := shortPart.1 },
      longPart.2 ++ shortPart.2)

/-- SimpleTrendsStrategy.check_and_execute (strategy.py lines 225-240):
one tick = observe the mark price into the extremes, then evaluate entry
signals. -/
def stCheckAndExecute (cfg : StConfig) (s : StEntryState)
    (mark_price last_trade_price0 : ℚ) : StEntryState × List String :=
  stCheckEntrySignals cfg (stUpdateMinMax s mark_price) mark_price last_trade_price0

/-- Iterated SimpleTrends ticks over a list of
(mark_price, last_trade_price) pairs. -/
def stRun (cfg : StConfig) (s : StEntryState) :
    List (ℚ × ℚ) → StEntryState
  | [] => s
  | t :: ts => stRun cfg (stCheckAndExecute cfg s t.1 t.2).1 ts

/-! ## Breakeven entry checks -/

/-- Configuration read by BreakevenStrategy._check_long_entry and
_check_short_entry, values already absolute. -/
structure BkConfig where
  long_enabled : Bool
  short_enabled : Bool
  long_margin_limit : Option ℚ
  short_margin_limit : Option ℚ
  long_order_limit : Nat
  short_order_limit : Nat
  forward_order_block_price : ℚ
  backward_order_block_price : ℚ
  order_threshold_price : ℚ
  deriving DecidableEq

/-- State touched by the breakeven entry checks: extremes, per-side open
order counts (position_state[side]['open_order_count']) and the entry
prices of the open orders recorded in the database (used by
_check_order_block). -/
structure BkState where
  min_price : ℚ
  max_price : ℚ
  long_open_order_count : Nat
  short_open_order_count : Nat
  db_open_long_prices : List ℚ
  db_open_short_prices : List ℚ
  deriving DecidableEq

/-- BreakevenStrategy._check_long_entry (strategy.py lines 289-322).
Returns the updated state and whether a LONG market order was submitted.
Note the ratchet min_price ← current_price happens only inside the branch
where the order-limit and order-block checks have already passed. -/
def bkCheckLongEntry (cfg : BkConfig) (s : BkState) (current_price : ℚ) :
    BkState × Bool :=
  if ¬cfg.long_enabled then (s, false)
  else if current_price = 0 then (s, false)
  else
    let sA := if current_price < s.min_price then { s with min_price := current_price } else s
    let s1 := if sA.max_price < current_price then { sA with max_price := current_price } else sA
    let marginBlocked : Bool :=
      match cfg.long_margin_limit with
      | some m => decide (m < current_price)
      | none => false
    if marginBlocked then (s1, false)
    else if s1.min_price + cfg.order_threshold_price ≤ current_price then
      if cfg.long_order_limit ≤ s1.long_open_order_count then (s1, false)
      else if bkCheckOrderBlock cfg.forward_order_block_price
          cfg.backward_order_block_price s1.db_open_long_prices current_price then
        ({ s1 with min_price := current_price }, true)
      else (s1, false)
    else (s1, false)

/-- BreakevenStrategy._check_short_entry (strategy.py lines 324-357),
symmetric to the long check on max_price. -/
def bkCheckShortEntry (cfg : BkConfig) (s : BkState) (current_price : ℚ) :
    BkState × Bool :=
  if ¬cfg.short_enabled then (s, false)
  else if current_price = 0 then (s, false)
  else
    let sA := if current_price < s.min_price then { s with min_price := current_price } else s
    let s1 := if sA.max_price < current_price then { sA with max_price := current_price } else sA
    let marginBlocked : Bool :=
      match cfg.short_margin_limit with
      | some m => decide (current_price < m)
      | none => false
    if marginBlocked then (s1, false)
    else if current_price ≤ s1.max_price - cfg.order_threshold_price then
      if cfg.short_order_limit ≤ s1.short_open_order_count then (s1, false)
      else if bkCheckOrderBlock cfg.forward_order_block_price
          cfg.backward_order_block_price s1.db_open_short_prices current_price then
        ({ s1 with max_price := current_price }, true)
      else (s1, false)
    else (s1, false)

/-! ## SimpleTrends fill handling -/

/-- Lookup in the pending_market_orders map, modelled as an association
list from venue order id to side. -/
def lookupPending (pending : List (String × String)) (order_id : String) :
    Option String :=
  match pending.find? (fun e => decide (e.1 = order_id)) with
  | some e => some e.2
  | none => none

/-- SimpleTrendsDatabase.get_order_by_binance_id (database.py lines
159-174): first row whose market, stop-loss or trailing-stop id matches;
note there is no filter on the row's status. -/
def stGetOrderByBinanceId (orders : List DbOrder) (order_id : String) :
    Option DbOrder :=
  orders.find? (fun o => decide (o.order_id = order_id ∨
    o.stop_loss_order_id = some order_id ∨
    o.trailing_stop_order_id = some order_id))

/-- Configuration read by SimpleTrendsStrategy.handle_order_fill and
_create_stop_orders: the reference (start) price and the raw percents,
from which _calculate_thresholds derives the absolute values once. -/
structure StFillConfig where
  start_price : ℚ
  profit_threshold_percent : ℚ
  stop_loss_percent : Option ℚ
  deriving DecidableEq

/-- profit_threshold_price from _calculate_thresholds (strategy.py line
169). -/
def stProfitThresholdPrice (cfg : StFillConfig) : ℚ :=
  cfg.start_price * (cfg.profit_threshold_percent / 100)

/-- stop_loss_price from _calculate_thresholds (strategy.py line 172):
None exactly when stop_loss_percent is None. -/
def stStopLossPrice (cfg : StFillConfig) : Option ℚ :=
  cfg.stop_loss_percent.map (fun pct => cfg.start_price * (pct / 100))

/-- Protective-order submissions performed by
SimpleTrendsStrategy._create_stop_orders (strategy.py lines 354-410): a
stop-market order at entry ∓ stop_loss_price and then a trailing stop
activating at entry ± profit_threshold_price, signs depending on side. -/
def stCreateStopOrdersActs (stop_loss_price profit_threshold_price : ℚ)
    (side : String) (entry_price : ℚ) : List Act :=
  if side = "LONG" then
    [Act.submitStopLoss (entry_price - stop_loss_price),
     Act.submitTrailing (entry_price + profit_threshold_price)]
  else
    [Act.submitStopLoss (entry_price + stop_loss_price),
     Act.submitTrailing (entry_price - profit_threshold_price)]

/-- Strategy state touched by SimpleTrendsStrategy.handle_order_fill:
the pending map, the persisted order rows (with a fresh-id counter for
the SERIAL primary key) and the per-side open-orders cache. -/
structure StFillState where
  pending_market_orders : List (String × String)
  orders : List DbOrder
  next_db_id : Nat
  open_orders_cache_long : List CacheOrder
  open_orders_cache_short : List CacheOrder
  deriving DecidableEq

/-- Database close of one order row (close_order, database.py lines
106-124): status CLOSED plus exit/profit/reason. -/
def closeDbOrder (exit_price pnl : ℚ) (close_reason : String) (target_id : Nat)
    (o : DbOrder) : DbOrder :=
  if o.id = target_id then
    { o with
      status := "CLOSED",
      exit_price := some exit_price,
      profit_usdt := some pnl,
      close_reason := some close_reason }
  else o

/-- Market-fill branch of SimpleTrendsStrategy.handle_order_fill
(strategy.py lines 423-459): record the order in the database and the
side's cache, remove the pending entry and, only when stop_loss_percent
is configured, launch _create_stop_orders (whose submissions appear in
the action list). -/
def stHandleMarketFill (cfg : StFillConfig) (s : StFillState) (e : FillEvent) :
    StFillState × List Act :=
  let side := (lookupPending s.pending_market_orders e.i).getD ""
  let filled_price := e.ap
  let filled_qty := e.z
  let db_id := s.next_db_id
  let newOrder : DbOrder :=
    { id := db_id,
      side := side,
      quantity := filled_qty,
      entry_price := filled_price,
      order_id := e.i,
      status := "OPEN",
      exit_price := none,
      profit_usdt := none,
      close_reason := none,
      stop_loss_order_id := none,
      trailing_stop_order_id := none }
  let cacheEntry : CacheOrder :=
    { id := db_id,
      side := side,
      order_id := e.i,
      quantity := filled_qty,
      entry_price := filled_price }
  let s1 : StFillState :=
    { pending_market_orders :=
        s.pending_market_orders.filter (fun p => decide (¬p.1 = e.i)),
      orders := s.orders ++ [newOrder],
      next_db_id := db_id + 1,
      open_orders_cache_long :=
        if side = "LONG" then s.open_orders_cache_long ++ [cacheEntry]
        else s.open_orders_cache_long,
      open_orders_cache_short :=
        if side = "SHORT" then s.open_orders_cache_short ++ [cacheEntry]
        else s.open_orders_cache_short }
  let acts : List Act :=
    match cfg.stop_loss_percent with
    | some pct =>
      stCreateStopOrdersActs (cfg.start_price * (pct / 100))
        (stProfitThresholdPrice cfg) side filled_price
    | none => []
  (s1, acts)

/-- Stop-fill branch of SimpleTrendsStrategy.handle_order_fill
(strategy.py lines 461-505), applied to the order row found by
get_order_by_binance_id: close the row, drop it from its side's cache and
cancel the sibling stop order. -/
def stHandleStopFill (s : StFillState) (e : FillEvent) (db_order : DbOrder) :
    StFillState × List Act :=
  let close_reason := if e.ot = "STOP_MARKET" then "STOP_LOSS" else "TRAILING_STOP"
  let exit_price := e.ap
  let pnl := e.rp
  let s1 : StFillState :=
    { s with
      orders := s.orders.map (closeDbOrder exit_price pnl close_reason db_order.id),
      open_orders_cache_long :=
        if db_order.side = "LONG" then
          s.open_orders_cache_long.filter (fun o => decide (¬o.id = db_order.id))
        else s.open_orders_cache_long,
      open_orders_cache_short :=
        if db_order.side = "SHORT" then
          s.open_orders_cache_short.filter (fun o => decide (¬o.id = db_order.id))
        else s.open_orders_cache_short }
  let other := if e.ot = "STOP_MARKET" then db_order.trailing_stop_order_id
    else db_order.stop_loss_order_id
  let acts : List Act :=
    Act.closeOrderRec db_order.id close_reason ::
      (match other with
       | some oid => [Act.cancelOrder oid]
       | none => [])
  (s1, acts)

/-- SimpleTrendsStrategy.handle_order_fill (strategy.py lines 412-508).
Non-FILLED events return immediately; a FILLED MARKET event matching the
pending map takes the market-fill branch; a FILLED event whose original
order type is STOP_MARKET or TRAILING_STOP_MARKET looks the order up by
any of its ids (no-op when absent) and takes the stop-fill branch. -/
def stHandleOrderFill (cfg : StFillConfig) (s : StFillState) (e : FillEvent) :
    StFillState × List Act :=
  if e.X ≠ "FILLED" then (s, [])
  else if e.o = "MARKET" ∧ (lookupPending s.pending_market_orders e.i).isSome then
    stHandleMarketFill cfg s e
  else if e.ot = "STOP_MARKET" ∨ e.ot = "TRAILING_STOP_MARKET" then
    match stGetOrderByBinanceId s.orders e.i with
    | none => (s, [])
    | some db_order => stHandleStopFill s e db_order
  else (s, [])

/-! ## AdvancedPnl fill handling -/

/-- Configuration read by AdvancedPnlStrategy.handle_order_fill and
_create_st_stop_orders, with the simpletrends threshold values as
computed by _calculate_st_thresholds from the reference price. -/
structure ApFillConfig where
  reference_price : ℚ
  st_long_profit_threshold_percent : ℚ
  st_short_profit_threshold_percent : ℚ
  st_stop_loss_percent : Option ℚ
  deriving DecidableEq

/-- st_long_profit_threshold_value from _calculate_st_thresholds
(strategy.py line 256). -/
def apStLongProfitThresholdValue (cfg : ApFillConfig) : ℚ :=
  cfg.reference_price * (cfg.st_long_profit_threshold_percent / 100)

/-- st_short_profit_threshold_value from _calculate_st_thresholds
(strategy.py line 257). -/
def apStShortProfitThresholdValue (cfg : ApFillConfig) : ℚ :=
  cfg.reference_price * (cfg.st_short_profit_threshold_percent / 100)

/-- st_long/short_stop_loss_value from _calculate_st_thresholds
(strategy.py lines 260-262): set only when st_stop_loss_percent is not
None (both sides get the same value). -/
def apStStopLossValue (cfg : ApFillConfig) : Option ℚ :=
  cfg.st_stop_loss_percent.map (fun pct => cfg.reference_price * (pct / 100))

/-- Protective-order submissions performed by
AdvancedPnlStrategy._create_st_stop_orders (strategy.py lines 755-813):
the stop-loss is created only when the stop-loss value is set and truthy
(a zero Decimal is falsy), the trailing stop is always created. -/
def apCreateStStopOrdersActs (cfg : ApFillConfig) (side : String)
    (entry_price : ℚ) : List Act :=
  if side = "LONG" then
    let trailing_activation := entry_price + apStLongProfitThresholdValue cfg
    let stop_loss_price : Option ℚ :=
      match apStStopLossValue cfg with
      | some v => if v = 0 then none else some (entry_price - v)
      | none => none
    (match stop_loss_price with
     | some p => [Act.submitStopLoss p]
     | none => []) ++ [Act.submitTrailing trailing_activation]
  else
    let trailing_activation := entry_price - apStShortProfitThresholdValue cfg
    let stop_loss_price : Option ℚ :=
      match apStStopLossValue cfg with
      | some v => if v = 0 then none else some (entry_price + v)
      | none => none
    (match stop_loss_price with
     | some p => [Act.submitStopLoss p]
     | none => []) ++ [Act.submitTrailing trailing_activation]

/-- Strategy state touched by AdvancedPnlStrategy.handle_order_fill. -/
structure ApFillState where
  closing_period : Bool
  long_close_price : Option ℚ
  short_close_price : Option ℚ
  long_close_qty : Option ℚ
  short_close_qty : Option ℚ
  st_pending_market_orders : List (String × String)
  st_orders : List DbOrder
  next_db_id : Nat
  st_cache_long : List CacheOrder
  st_cache_short : List CacheOrder
  deriving DecidableEq

/-- AdvancedPnlStrategy.handle_order_fill (strategy.py lines 815-932).
Like the SimpleTrends handler, except: while closing_period is set,
FILLED MARKET events are routed to period-close bookkeeping; the
_create_st_stop_orders task is launched unconditionally on an ST entry
fill; and both ST branches refresh the breakeven cache. -/
def apHandleOrderFill (cfg : ApFillConfig) (s : ApFillState) (e : FillEvent) :
    ApFillState × List Act :=
  if e.X ≠ "FILLED" then (s, [])
  else if s.closing_period ∧ e.o = "MARKET" then
    if e.ps = "LONG" ∧ e.S = "SELL" then
      ({ s with long_close_price := some e.ap, long_close_qty := some e.z }, [])
    else if e.ps = "SHORT" ∧ e.S = "BUY" then
      ({ s with short_close_price := some e.ap, short_close_qty := some e.z }, [])
    else (s, [])
  else if e.o = "MARKET" ∧ (lookupPending s.st_pending_market_orders e.i).isSome then
    let side := (lookupPending s.st_pending_market_orders e.i).getD ""
    let filled_price := e.ap
    let filled_qty := e.z
    let db_id := s.next_db_id
    let newOrder : DbOrder :=
      { id := db_id,
        side := side,
        quantity := filled_qty,
        entry_price := filled_price,
        order_id := e.i,
        status := "OPEN",
        exit_price := none,
        profit_usdt := none,
        close_reason := none,
        stop_loss_order_id := none,
        trailing_stop_order_id := none }
    let cacheEntry : CacheOrder :=
      { id := db_id,
        side := side,
        order_id := e.i,
        quantity := filled_qty,
        entry_price := filled_price }
    let s1 : ApFillState :=
      { s with
        st_pending_market_orders :=
          s.st_pending_market_orders.filter (fun p => decide (¬p.1 = e.i)),
        st_orders := s.st_orders ++ [newOrder],
        next_db_id := db_id + 1,
        st_cache_long :=
          if side = "LONG" then s.st_cache_long ++ [cacheEntry]
          else s.st_cache_long,
        st_cache_short :=
          if side = "SHORT" then s.st_cache_short ++ [cacheEntry]
          else s.st_cache_short }
    (s1, apCreateStStopOrdersActs cfg side filled_price ++ [Act.refreshCache])
  else if e.ot = "STOP_MARKET" ∨ e.ot = "TRAILING_STOP_MARKET" then
    match stGetOrderByBinanceId s.st_orders e.i with
    | none => (s, [])
    | some db_order =>
      let close_reason := if e.ot = "STOP_MARKET" then "STOP_LOSS" else "TRAILING_STOP"
      let s1 : ApFillState :=
        { s with
          st_orders := s.st_orders.map (closeDbOrder e.ap e.rp close_reason db_order.id),
          st_cache_long :=
            if db_order.side = "LONG" then
              s.st_cache_long.filter (fun o => decide (¬o.id = db_order.id))
            else s.st_cache_long,
          st_cache_short :=
            if db_order.side = "SHORT" then
              s.st_cache_short.filter (fun o => decide (¬o.id = db_order.id))
            else s.st_cache_short }
      let other := if e.ot = "STOP_MARKET" then db_order.trailing_stop_order_id
        else db_order.stop_loss_order_id
      let acts : List Act :=
        Act.closeOrderRec db_order.id close_reason ::
          (match other with
           | some oid => [Act.cancelOrder oid]
           | none => []) ++ [Act.refreshCache]
      (s1, acts)
  else (s, [])

/-! ## Period close: pnlgap versus advancedpnl -/

/-- PnlGridStrategy profit estimate from _check_profit_taking
(strategy.py lines 277-287): directional PnL from the cached per-side
breakeven prices and sizes at the current price. -/
def pnlgapNetPnlEstimate (long_breakeven short_breakeven long_size short_size
    mark_price : ℚ) : ℚ :=
  let long_pnl := if 0 < long_size ∧ 0 < long_breakeven
    then (mark_price - long_breakeven) * long_size else 0
  let short_pnl := if 0 < short_size ∧ 0 < short_breakeven
    then (short_breakeven - mark_price) * short_size else 0
  long_pnl + short_pnl

/-- PnlGridStrategy._close_all_positions (strategy.py lines 301-345)
ends the period with db.end_period(period_id, net_pnl): the stored
total_profit is the net_pnl argument (the pre-close estimate).  The
realized-PnL reports delivered by the venue during the close sequence
are not consulted anywhere in this strategy, so the stored value does
not depend on them. -/
def pnlgapEndPeriodTotalProfit (net_pnl : ℚ)
    (close_events : List PosUpdate) : ℚ :=
  net_pnl

/-- AdvancedPnlStrategy.update_position_entry_price, realized-PnL part
(strategy.py lines 961-966): an ACCOUNT_UPDATE carrying a cumulative
realized value overwrites the tracked per-side realized PnL. -/
def apUpdateRealizedPnl (r : ℚ × ℚ) (ev : PosUpdate) : ℚ × ℚ :=
  match ev.cr with
  | some c =>
    if ev.ps = "LONG" then (c, r.2)
    else if ev.ps = "SHORT" then (r.1, c)
    else r
  | none => r

/-- AdvancedPnlStrategy._close_period (strategy.py lines 534-645): the
realized-PnL tracker is reset to zero before positions are closed, the
ACCOUNT_UPDATE events delivered while waiting for the closes feed it
through update_position_entry_price, and the period is ended with
db.end_period(period_id, realized long + realized short).  The net_pnl
estimate passed in from _check_period_close is only logged. -/
def apClosePeriodTotalProfit (net_pnl : ℚ)
    (close_events : List PosUpdate) : ℚ :=
  let r := close_events.foldl apUpdateRealizedPnl (0, 0)
  r.1 + r.2

/-- Specification-side reading of the claim: the last venue-reported
cumulative realized PnL for one side among the events collected during
the close sequence (zero when the side reported nothing). -/
def collectedRealized (side : String) (close_events : List PosUpdate) : ℚ :=
  (close_events.filterMap
    (fun ev => if ev.ps = side then ev.cr else none)).getLastD 0

/-! ## Helper lemmas -/

theorem listMinQ_le_start (x : ℚ) (xs : List ℚ) : listMinQ x xs ≤ x := by
  induction xs generalizing x with
  | nil => simp [listMinQ]
  | cons y ys ih =>
    calc listMinQ (min x y) ys ≤ min x y := ih (min x y)
    _ ≤ x := min_le_left x y

theorem listMinQ_le_mem (x q : ℚ) (xs : List ℚ) (hq : q ∈ xs) :
    listMinQ x xs ≤ q := by
  induction xs generalizing x with
  | nil => cases hq
  | cons y ys ih =>
    rcases List.mem_cons.mp hq with h | h
    · subst h
      calc listMinQ (min x q) ys ≤ min x q := listMinQ_le_start _ _
      _ ≤ q := min_le_right x q
    · exact ih (min x y) h

theorem listMaxQ_ge_start (x : ℚ) (xs : List ℚ) : x ≤ listMaxQ x xs := by
  induction xs generalizing x with
  | nil => simp [listMaxQ]
  | cons y ys ih =>
    calc x ≤ max x y := le_max_left x y
    _ ≤ listMaxQ (max x y) ys := ih (max x y)

theorem listMaxQ_ge_mem (x q : ℚ) (xs : List ℚ) (hq : q ∈ xs) :
    q ≤ listMaxQ x xs := by
  induction xs generalizing x with
  | nil => cases hq
  | cons y ys ih =>
    rcases List.mem_cons.mp hq with h | h
    · subst h
      calc q ≤ max x q := le_max_right x q
      _ ≤ listMaxQ (max x q) ys := listMaxQ_ge_start _ _
    · exact ih (max x y) h

/-! ## C1: entry trigger conditions and ratchets -/

/-- C1 counterexample: in SimpleTrendsStrategy._check_entry_signals the
LONG trigger compares the price against the tracked minimum, not the
maximum: with min = 100, max = 110, threshold 3, price 104 a LONG entry
is submitted although 104 < max + threshold = 113. -/
theorem C1_counterexample :
    "LONG" ∈ (stCheckEntrySignals
      ⟨true, true, none, none, 999, 999, 0, 0, 3⟩
      ⟨100, 110, [], []⟩ 104 104).2 ∧
    ¬((110 : ℚ) + 3 ≤ 104) := by
  constructor
  · norm_num [stCheckEntrySignals, stCheckOrderBlock]
  · norm_num

/-- C1 amended: in pnlgap's _check_entry_signals (given the nonzero
guard) a LONG entry is submitted exactly when p ≥ max + threshold, with
max ratcheted to p on the trigger, and a SHORT exactly when
p ≤ min − threshold, with min ratcheted to p; in simpletrends'
_check_entry_signals the extremes swap roles: the LONG trigger is
p ≥ min + threshold and ratchets min ← p (a LONG order is submitted only
if additionally the suppression checks pass), and the SHORT trigger is
p ≤ max − threshold and ratchets max ← p. -/
theorem C1_amended :
    (∀ (thr : ℚ) (s : PnlgapEntryState) (p : ℚ),
      ¬(s.min_price = 0 ∨ s.max_price = 0 ∨ thr = 0) →
      (("LONG" ∈ (pnlgapCheckEntrySignals thr s p).2 ↔ s.max_price + thr ≤ p) ∧
       (s.max_price + thr ≤ p → (pnlgapCheckEntrySignals thr s p).1.max_price = p) ∧
       (¬(s.max_price + thr ≤ p) →
         (pnlgapCheckEntrySignals thr s p).1.max_price = s.max_price) ∧
       ("SHORT" ∈ (pnlgapCheckEntrySignals thr s p).2 ↔ p ≤ s.min_price - thr) ∧
       (p ≤ s.min_price - thr → (pnlgapCheckEntrySignals thr s p).1.min_price = p) ∧
       (¬(p ≤ s.min_price - thr) →
         (pnlgapCheckEntrySignals thr s p).1.min_price = s.min_price)))
    ∧
    (∀ (cfg : StConfig) (s : StEntryState) (p lt : ℚ),
      ¬(s.min_price = 0 ∨ s.max_price = 0 ∨ cfg.order_threshold_price = 0) →
      ((cfg.long_enabled = true → s.min_price + cfg.order_threshold_price ≤ p →
          (stCheckEntrySignals cfg s p lt).1.min_price = p) ∧
       (cfg.long_enabled = true → ¬(s.min_price + cfg.order_threshold_price ≤ p) →
          (stCheckEntrySignals cfg s p lt).1.min_price = s.min_price) ∧
       ("LONG" ∈ (stCheckEntrySignals cfg s p lt).2 →
          s.min_price + cfg.order_threshold_price ≤ p) ∧
       (cfg.short_enabled = true → p ≤ s.max_price - cfg.order_threshold_price →
          (stCheckEntrySignals cfg s p lt).1.max_price = p) ∧
       (cfg.short_enabled = true → ¬(p ≤ s.max_price - cfg.order_threshold_price) →
          (stCheckEntrySignals cfg s p lt).1.max_price = s.max_price) ∧
       ("SHORT" ∈ (stCheckEntrySignals cfg s p lt).2 →
          p ≤ s.max_price - cfg.order_threshold_price))) := by
  constructor
  · intro thr s p h
    simp only [pnlgapCheckEntrySignals, if_neg h]
    split_ifs with h1 h2 h2 <;> simp_all
  · intro cfg s p lt h
    simp only [stCheckEntrySignals, if_neg h]
    split_ifs <;> simp_all

/-- C1 amended witness at threshold 3, state (min 100, max 100),
price 103. -/
theorem C1_amended_witness :
    "LONG" ∈ (pnlgapCheckEntrySignals 3 ⟨100, 100⟩ 103).2 ↔ (100 : ℚ) + 3 ≤ 103 :=
  (C1_amended.1 3 ⟨100, 100⟩ 103 (by norm_num)).1

/-! ## C2: ratchet placement relative to the suppression checks -/

/-- C2 counterexample: in BreakevenStrategy._check_long_entry the ratchet
sits after the order-limit check, so with min = max = 100, threshold 3,
open LONG order count 1 = limit, price 103: the long trigger holds
(100 + 3 ≤ 103), the order is suppressed, and min_price stays 100
instead of becoming the triggering price 103. -/
theorem C2_counterexample :
    (bkCheckLongEntry ⟨true, true, none, none, 1, 1, 0, 0, 3⟩
      ⟨100, 100, 1, 1, [], []⟩ 103).1.min_price = 100 ∧
    (bkCheckLongEntry ⟨true, true, none, none, 1, 1, 0, 0, 3⟩
      ⟨100, 100, 1, 1, [], []⟩ 103).2 = false ∧
    (100 : ℚ) + 3 ≤ 103 ∧ (100 : ℚ) ≠ 103 := by
  refine ⟨?_, ?_, by norm_num, by norm_num⟩ <;>
    norm_num [bkCheckLongEntry, bkCheckOrderBlock]

set_option maxHeartbeats 1600000 in
/-- C2 amended: in simpletrends' _check_entry_signals the triggering
extreme is ratcheted to the triggering price before the margin-limit,
order-limit and order-block checks, so it equals the triggering price
even when the order is suppressed; in breakeven's _check_long_entry and
_check_short_entry the ratchet happens only after the order-limit and
order-block checks pass, so on a trigger suppressed by the order limit
the extreme keeps its observed value. -/
theorem C2_amended :
    (∀ (cfg : StConfig) (s : StEntryState) (p lt : ℚ),
      ¬(s.min_price = 0 ∨ s.max_price = 0 ∨ cfg.order_threshold_price = 0) →
      ((cfg.long_enabled = true → s.min_price + cfg.order_threshold_price ≤ p →
          (stCheckEntrySignals cfg s p lt).1.min_price = p) ∧
       (cfg.short_enabled = true → p ≤ s.max_price - cfg.order_threshold_price →
          (stCheckEntrySignals cfg s p lt).1.max_price = p)))
    ∧
    (∀ (cfg : BkConfig) (s : BkState) (p : ℚ),
      cfg.long_enabled = true → p ≠ 0 → cfg.long_margin_limit = none →
      0 < cfg.order_threshold_price →
      s.min_price + cfg.order_threshold_price ≤ p →
      cfg.long_order_limit ≤ s.long_open_order_count →
      ((bkCheckLongEntry cfg s p).1.min_price = s.min_price ∧
       (bkCheckLongEntry cfg s p).2 = false))
    ∧
    (∀ (cfg : BkConfig) (s : BkState) (p : ℚ),
      cfg.short_enabled = true → p ≠ 0 → cfg.short_margin_limit = none →
      0 < cfg.order_threshold_price →
      p ≤ s.max_price - cfg.order_threshold_price →
      cfg.short_order_limit ≤ s.short_open_order_count →
      ((bkCheckShortEntry cfg s p).1.max_price = s.max_price ∧
       (bkCheckShortEntry cfg s p).2 = false)) := by
  refine ⟨?_, ?_, ?_⟩
  · intro cfg s p lt h
    simp only [stCheckEntrySignals, if_neg h]
    constructor
    · intro he ht
      split_ifs <;> simp_all
    · intro he ht
      split_ifs <;> simp_all
  · intro cfg s p he hp hm hthr ht hlim
    have hlt : s.min_price < p := by linarith
    simp only [bkCheckLongEntry, he, hp, hm]
    split_ifs <;> simp_all <;> linarith
  · intro cfg s p he hp hm hthr ht hlim
    have hle : p ≤ s.max_price := by linarith
    simp only [bkCheckShortEntry, he, hp, hm]
    split_ifs <;> simp_all <;> linarith

/-- C2 amended witness: simpletrends ratchet at threshold 3, state
(min 100, max 200), price 103 with the long side enabled. -/
theorem C2_amended_witness :
    (stCheckEntrySignals ⟨true, true, none, none, 999, 999, 0, 0, 3⟩
      ⟨100, 200, [], []⟩ 103 103).1.min_price = 103 :=
  (C2_amended.1 ⟨true, true, none, none, 999, 999, 0, 0, 3⟩
    ⟨100, 200, [], []⟩ 103 103 (by norm_num)).1 rfl (by norm_num)

/-! ## C3: period close profit bookkeeping -/

/-- Characterization of the realized-PnL fold: each component is the last
cumulative value reported for its side, with the accumulator as default. -/
theorem apFoldRealized (evs : List PosUpdate) :
    ∀ a b : ℚ,
      (evs.foldl apUpdateRealizedPnl (a, b)).1 =
        (evs.filterMap (fun ev => if ev.ps = "LONG" then ev.cr else none)).getLastD a ∧
      (evs.foldl apUpdateRealizedPnl (a, b)).2 =
        (evs.filterMap (fun ev => if ev.ps = "SHORT" then ev.cr else none)).getLastD b := by
  induction evs with
  | nil => intro a b; constructor <;> rfl
  | cons ev evs ih =>
    intro a b
    rcases hcr : ev.cr with _ | c
    · have hstep : apUpdateRealizedPnl (a, b) ev = (a, b) := by
        simp [apUpdateRealizedPnl, hcr]
      have hfL : (if ev.ps = "LONG" then ev.cr else none) = none := by
        simp [hcr]
      have hfS : (if ev.ps = "SHORT" then ev.cr else none) = none := by
        simp [hcr]
      rw [List.foldl_cons, hstep, List.filterMap_cons, List.filterMap_cons, hfL, hfS]
      exact ih a b
    · by_cases hL : ev.ps = "LONG"
      · have hstep : apUpdateRealizedPnl (a, b) ev = (c, b) := by
          simp [apUpdateRealizedPnl, hcr, hL]
        have hS : ¬ev.ps = "SHORT" := by rw [hL]; decide
        have hfL : (if ev.ps = "LONG" then ev.cr else none) = some c := by
          simp [hcr, hL]
        have hfS : (if ev.ps = "SHORT" then ev.cr else none) = none := by
          simp [hS]
        rw [List.foldl_cons, hstep, List.filterMap_cons, List.filterMap_cons, hfL, hfS,
          List.getLastD_cons]
        exact ih c b
      · by_cases hS : ev.ps = "SHORT"
        · have hstep : apUpdateRealizedPnl (a, b) ev = (a, c) := by
            simp [apUpdateRealizedPnl, hcr, hL, hS]
          have hfL : (if ev.ps = "LONG" then ev.cr else none) = none := by
            simp [hL]
          have hfS : (if ev.ps = "SHORT" then ev.cr else none) = some c := by
            simp [hcr, hS]
          rw [List.foldl_cons, hstep, List.filterMap_cons, List.filterMap_cons, hfL, hfS,
            List.getLastD_cons]
          exact ih a c
        · have hstep : apUpdateRealizedPnl (a, b) ev = (a, b) := by
            simp [apUpdateRealizedPnl, hcr, hL, hS]
          have hfL : (if ev.ps = "LONG" then ev.cr else none) = none := by
            simp [hL]
          have hfS : (if ev.ps = "SHORT" then ev.cr else none) = none := by
            simp [hS]
          rw [List.foldl_cons, hstep, List.filterMap_cons, List.filterMap_cons, hfL, hfS]
          exact ih a b

/-- C3 counterexample: pnlgap ends the period with the pre-close estimate.
With cached LONG breakeven 100 and size 5 at close price 103.3 the
estimate is 16.5, the venue reports realized PnL 16 during the close, and
the stored total_profit is 16.5, not 16. -/
theorem C3_counterexample :
    pnlgapEndPeriodTotalProfit
        (pnlgapNetPnlEstimate 100 0 5 0 (1033/10))
        [⟨"LONG", none, none, 0, some 16⟩] = 33/2 ∧
    collectedRealized "LONG" [(⟨"LONG", none, none, 0, some 16⟩ : PosUpdate)] +
      collectedRealized "SHORT" [(⟨"LONG", none, none, 0, some 16⟩ : PosUpdate)] = 16 ∧
    (33/2 : ℚ) ≠ 16 := by
  refine ⟨?_, ?_, by norm_num⟩
  · norm_num [pnlgapEndPeriodTotalProfit, pnlgapNetPnlEstimate]
  · have h1 : collectedRealized "LONG"
        [(⟨"LONG", none, none, 0, some 16⟩ : PosUpdate)] = 16 := rfl
    have h2 : collectedRealized "SHORT"
        [(⟨"LONG", none, none, 0, some 16⟩ : PosUpdate)] = 0 := rfl
    rw [h1, h2]
    norm_num

/-- C3 amended: advancedpnl's _close_period stores as the period's
total_profit the sum over sides of the last venue-reported cumulative
realized PnL collected during the close sequence (the realized tracker is
reset to zero first), independent of the pre-close estimate; pnlgap's
_close_all_positions instead stores exactly the pre-close estimate,
ignoring the realized reports. -/
theorem C3_amended :
    (∀ (est1 est2 : ℚ) (evs : List PosUpdate),
      apClosePeriodTotalProfit est1 evs = apClosePeriodTotalProfit est2 evs) ∧
    (∀ (est : ℚ) (evs : List PosUpdate),
      apClosePeriodTotalProfit est evs =
        collectedRealized "LONG" evs + collectedRealized "SHORT" evs) ∧
    (∀ (net_pnl : ℚ) (evs : List PosUpdate),
      pnlgapEndPeriodTotalProfit net_pnl evs = net_pnl) := by
  refine ⟨fun est1 est2 evs => rfl, ?_, fun net evs => rfl⟩
  intro est evs
  have h := apFoldRealized evs 0 0
  simp only [apClosePeriodTotalProfit, collectedRealized]
  rw [h.1, h.2]

/-! ## C4: extremes invariant and monotonicity -/

/-- One pnlgap tick keeps min ≤ max, never decreases max and never
increases min, provided the threshold is non-negative. -/
theorem pnlgapStep_inv (thr : ℚ) (s : PnlgapEntryState) (p : ℚ)
    (hthr : 0 ≤ thr) (hs : s.min_price ≤ s.max_price) :
    (pnlgapCheckEntrySignals thr s p).1.min_price ≤
      (pnlgapCheckEntrySignals thr s p).1.max_price ∧
    (pnlgapCheckEntrySignals thr s p).1.min_price ≤ s.min_price ∧
    s.max_price ≤ (pnlgapCheckEntrySignals thr s p).1.max_price := by
  simp only [pnlgapCheckEntrySignals]
  split_ifs <;> simp_all <;> and_intros <;> linarith

/-- Invariant min ≤ max along any pnlgap run. -/
theorem pnlgapRun_inv (thr : ℚ) (hthr : 0 ≤ thr) (ps : List ℚ)
    (s : PnlgapEntryState) (hs : s.min_price ≤ s.max_price) :
    (pnlgapRun thr s ps).min_price ≤ (pnlgapRun thr s ps).max_price := by
  induction ps generalizing s with
  | nil => exact hs
  | cons p ps ih =>
    exact ih _ (pnlgapStep_inv thr s p hthr hs).1

/-- The observation step never increases min and never decreases max,
and brackets the observed price. -/
theorem stUpdateMinMax_mono (s : StEntryState) (p : ℚ) :
    (stUpdateMinMax s p).min_price ≤ s.min_price ∧
    s.max_price ≤ (stUpdateMinMax s p).max_price ∧
    (stUpdateMinMax s p).min_price ≤ p ∧
    p ≤ (stUpdateMinMax s p).max_price := by
  simp only [stUpdateMinMax]
  split_ifs <;> simp_all <;> and_intros <;> linarith

/-- The simpletrends entry step leaves each extreme either unchanged or
equal to the tick price. -/
theorem stCheckEntrySignals_minmax_cases (cfg : StConfig) (s : StEntryState)
    (p lt : ℚ) :
    ((stCheckEntrySignals cfg s p lt).1.min_price = s.min_price ∨
      (stCheckEntrySignals cfg s p lt).1.min_price = p) ∧
    ((stCheckEntrySignals cfg s p lt).1.max_price = s.max_price ∨
      (stCheckEntrySignals cfg s p lt).1.max_price = p) := by
  simp only [stCheckEntrySignals]
  split_ifs <;> simp_all

/-- One full simpletrends tick (observe then entry signals) preserves
min ≤ max. -/
theorem stTick_inv (cfg : StConfig) (s : StEntryState) (p lt : ℚ)
    (hs : s.min_price ≤ s.max_price) :
    (stCheckAndExecute cfg s p lt).1.min_price ≤
      (stCheckAndExecute cfg s p lt).1.max_price := by
  have hm := stUpdateMinMax_mono s p
  have hc := stCheckEntrySignals_minmax_cases cfg (stUpdateMinMax s p) p lt
  simp only [stCheckAndExecute]
  rcases hc.1 with h1 | h1 <;> rcases hc.2 with h2 | h2 <;>
    rw [h1, h2] <;> linarith

/-- Invariant min ≤ max along any simpletrends run. -/
theorem stRun_inv (cfg : StConfig) (ts : List (ℚ × ℚ)) (s : StEntryState)
    (hs : s.min_price ≤ s.max_price) :
    (stRun cfg s ts).min_price ≤ (stRun cfg s ts).max_price := by
  induction ts generalizing s with
  | nil => exact hs
  | cons t ts ih =>
    exact ih _ (stTick_inv cfg s t.1 t.2 hs)

/-- C4 counterexample: in a simpletrends tick from the reset state
(min = max = 100, threshold 3, empty caches) at price 103, the LONG
trigger ratchets min up from 100 to 103 — the tracked minimum increases
between resets. -/
theorem C4_counterexample :
    (stCheckAndExecute ⟨true, true, none, none, 999, 999, 0, 0, 3⟩
      ⟨100, 100, [], []⟩ 103 103).1.min_price = 103 ∧
    (100 : ℚ) < 103 := by
  constructor
  · norm_num [stCheckAndExecute, stUpdateMinMax, stCheckEntrySignals,
      stCheckOrderBlock]
  · norm_num

/-- C4 amended: min ≤ max holds in every state reachable between resets
in both engines — along any pnlgap run with non-negative threshold, and
along any simpletrends run of full ticks; in pnlgap each tick also never
decreases max and never increases min; in simpletrends only the
observation step is monotone that way, while the entry step can move an
extreme to the tick price (the long ratchet raises min, the short
ratchet lowers max). -/
theorem C4_amended :
    (∀ (thr : ℚ) (ps : List ℚ) (s : PnlgapEntryState), 0 ≤ thr →
      s.min_price ≤ s.max_price →
      (pnlgapRun thr s ps).min_price ≤ (pnlgapRun thr s ps).max_price) ∧
    (∀ (thr : ℚ) (s : PnlgapEntryState) (p : ℚ), 0 ≤ thr →
      s.min_price ≤ s.max_price →
      ((pnlgapCheckEntrySignals thr s p).1.min_price ≤ s.min_price ∧
       s.max_price ≤ (pnlgapCheckEntrySignals thr s p).1.max_price)) ∧
    (∀ (cfg : StConfig) (ts : List (ℚ × ℚ)) (s : StEntryState),
      s.min_price ≤ s.max_price →
      (stRun cfg s ts).min_price ≤ (stRun cfg s ts).max_price) ∧
    (∀ (s : StEntryState) (p : ℚ),
      (stUpdateMinMax s p).min_price ≤ s.min_price ∧
      s.max_price ≤ (stUpdateMinMax s p).max_price) ∧
    (∀ (cfg : StConfig) (s : StEntryState) (p lt : ℚ),
      ((stCheckEntrySignals cfg s p lt).1.min_price = s.min_price ∨
        (stCheckEntrySignals cfg s p lt).1.min_price = p) ∧
      ((stCheckEntrySignals cfg s p lt).1.max_price = s.max_price ∨
        (stCheckEntrySignals cfg s p lt).1.max_price = p)) := by
  refine ⟨?_, ?_, ?_, ?_, ?_⟩
  · intro thr ps s hthr hs
    exact pnlgapRun_inv thr hthr ps s hs
  · intro thr s p hthr hs
    exact (pnlgapStep_inv thr s p hthr hs).2
  · intro cfg ts s hs
    exact stRun_inv cfg ts s hs
  · intro s p
    exact ⟨(stUpdateMinMax_mono s p).1, (stUpdateMinMax_mono s p).2.1⟩
  · intro cfg s p lt
    exact stCheckEntrySignals_minmax_cases cfg s p lt

/-- C4 amended witness at threshold 3 from the reset state (100, 100)
over prices 104 then 98. -/
theorem C4_amended_witness :
    (pnlgapRun 3 ⟨100, 100⟩ [104, 98]).min_price ≤
      (pnlgapRun 3 ⟨100, 100⟩ [104, 98]).max_price :=
  C4_amended.1 3 [104, 98] ⟨100, 100⟩ (by norm_num) (by norm_num)

/-! ## C7: order-block spacing -/

/-- If some forward price is within a positive block distance, the
forward test fails (the closest forward order is at most that near). -/
theorem forwardFailCheck_true (block current q : ℚ) (l : List ℚ)
    (hq : q ∈ l) (hb : 0 < block) (hd : q - current < block) :
    forwardFailCheck block l current = true := by
  cases l with
  | nil => cases hq
  | cons r rs =>
    have hmin : listMinQ r rs ≤ q := by
      rcases List.mem_cons.mp hq with h | h
      · subst h; exact listMinQ_le_start q rs
      · exact listMinQ_le_mem r q rs h
    simp only [forwardFailCheck, Bool.and_eq_true, decide_eq_true_eq]
    exact ⟨hb, by linarith⟩

/-- If some backward price is within a positive block distance, the
backward test fails. -/
theorem backwardFailCheck_true (block current q : ℚ) (l : List ℚ)
    (hq : q ∈ l) (hb : 0 < block) (hd : current - q < block) :
    backwardFailCheck block l current = true := by
  cases l with
  | nil => cases hq
  | cons r rs =>
    have hmax : q ≤ listMaxQ r rs := by
      rcases List.mem_cons.mp hq with h | h
      · subst h; exact listMaxQ_ge_start q rs
      · exact listMaxQ_ge_mem r q rs h
    simp only [backwardFailCheck, Bool.and_eq_true, decide_eq_true_eq]
    exact ⟨hb, by linarith⟩

/-- C7: for both simpletrends' _check_order_block and advancedpnl's
_check_st_order_block, the check returns False whenever some cached
same-side order lies, in a direction whose configured block distance is
positive, strictly closer to the candidate price than that distance; and
the check returns True when both block distances are zero or when no
same-side orders are open. -/
theorem C7_order_block :
    (∀ (fwd bwd : ℚ) (orders : List CacheOrder) (p : ℚ),
      (∃ o ∈ orders,
        (0 < fwd ∧ p < o.entry_price ∧ o.entry_price - p < fwd) ∨
        (0 < bwd ∧ o.entry_price < p ∧ p - o.entry_price < bwd)) →
      stCheckOrderBlock fwd bwd orders p = false) ∧
    (∀ (orders : List CacheOrder) (p : ℚ),
      stCheckOrderBlock 0 0 orders p = true) ∧
    (∀ (fwd bwd p : ℚ), stCheckOrderBlock fwd bwd [] p = true) ∧
    (∀ (fwd bwd : ℚ) (orders : List CacheOrder) (p : ℚ),
      (∃ o ∈ orders,
        (0 < fwd ∧ p < o.entry_price ∧ o.entry_price - p < fwd) ∨
        (0 < bwd ∧ o.entry_price < p ∧ p - o.entry_price < bwd)) →
      apCheckStOrderBlock fwd bwd orders p = false) ∧
    (∀ (orders : List CacheOrder) (p : ℚ),
      apCheckStOrderBlock 0 0 orders p = true) ∧
    (∀ (fwd bwd p : ℚ), apCheckStOrderBlock fwd bwd [] p = true) := by
  refine ⟨?_, ?_, ?_, ?_, ?_, ?_⟩
  · intro fwd bwd orders p h
    obtain ⟨o, ho, hcase⟩ := h
    have hne : ¬(orders.isEmpty = true) := by
      cases orders with
      | nil => cases ho
      | cons a l => simp [List.isEmpty]
    have hguard : ¬(fwd = 0 ∧ bwd = 0) := by
      rintro ⟨h1, h2⟩
      rcases hcase with ⟨hb, _, _⟩ | ⟨hb, _, _⟩ <;> subst_vars <;> linarith
    have hmem : o.entry_price ∈ orders.map (fun o => o.entry_price) :=
      List.mem_map_of_mem _ ho
    rw [stCheckOrderBlock, if_neg hguard, if_neg hne]
    rcases hcase with ⟨hb, hlt, hd⟩ | ⟨hb, hlt, hd⟩
    · have hmemf : o.entry_price ∈
          (orders.map (fun o => o.entry_price)).filter (fun q => decide (p < q)) :=
        List.mem_filter.mpr ⟨hmem, by simpa using hlt⟩
      rw [if_pos (forwardFailCheck_true fwd p o.entry_price _ hmemf hb hd)]
    · have hmemb : o.entry_price ∈
          (orders.map (fun o => o.entry_price)).filter (fun q => decide (q < p)) :=
        List.mem_filter.mpr ⟨hmem, by simpa using hlt⟩
      have hbf := backwardFailCheck_true bwd p o.entry_price _ hmemb hb hd
      by_cases hf : forwardFailCheck fwd
          ((orders.map (fun o => o.entry_price)).filter (fun q => decide (p < q))) p = true
      · rw [if_pos hf]
      · rw [if_neg hf, if_pos hbf]
  · intro orders p
    simp [stCheckOrderBlock]
  · intro fwd bwd p
    by_cases h : fwd = 0 ∧ bwd = 0 <;>
      simp [stCheckOrderBlock, h, List.isEmpty]
  · intro fwd bwd orders p h
    obtain ⟨o, ho, hcase⟩ := h
    have hne : ¬(orders.isEmpty = true) := by
      cases orders with
      | nil => cases ho
      | cons a l => simp [List.isEmpty]
    have hguard : ¬(fwd = 0 ∧ bwd = 0) := by
      rintro ⟨h1, h2⟩
      rcases hcase with ⟨hb, _, _⟩ | ⟨hb, _, _⟩ <;> subst_vars <;> linarith
    have hmem : o.entry_price ∈ orders.map (fun o => o.entry_price) :=
      List.mem_map_of_mem _ ho
    rw [apCheckStOrderBlock, if_neg hguard, if_neg hne]
    rcases hcase with ⟨hb, hlt, hd⟩ | ⟨hb, hlt, hd⟩
    · have hmemf : o.entry_price ∈
          (orders.map (fun o => o.entry_price)).filter (fun q => decide (p ≤ q)) :=
        List.mem_filter.mpr ⟨hmem, by simpa using le_of_lt hlt⟩
      rw [if_pos (forwardFailCheck_true fwd p o.entry_price _ hmemf hb hd)]
    · have hmemb : o.entry_price ∈
          (orders.map (fun o => o.entry_price)).filter (fun q => decide (q ≤ p)) :=
        List.mem_filter.mpr ⟨hmem, by simpa using le_of_lt hlt⟩
      have hbf := backwardFailCheck_true bwd p o.entry_price _ hmemb hb hd
      by_cases hf : forwardFailCheck fwd
          ((orders.map (fun o => o.entry_price)).filter (fun q => decide (p ≤ q))) p = true
      · rw [if_pos hf]
      · rw [if_neg hf, if_pos hbf]
  · intro orders p
    simp [apCheckStOrderBlock]
  · intro fwd bwd p
    by_cases h : fwd = 0 ∧ bwd = 0 <;>
      simp [apCheckStOrderBlock, h, List.isEmpty]

/-- C7 witness: forward block 5, one open LONG order at entry 102,
candidate price 100 — distance 2 < 5, so the check blocks. -/
theorem C7_order_block_witness :
    stCheckOrderBlock 5 0 [⟨1, "LONG", "7", 1, 102⟩] 100 = false :=
  C7_order_block.1 5 0 [⟨1, "LONG", "7", 1, 102⟩] 100
    ⟨⟨1, "LONG", "7", 1, 102⟩, by norm_num, Or.inl ⟨by norm_num, by norm_num, by norm_num⟩⟩

/-! ## C8: protective order prices -/

/-- C8: on a confirmed entry fill at price e.ap, the simpletrends handler
(with a stop-loss percent configured) submits a stop-loss at
entry ∓ stop_loss_distance and a trailing stop activating at
entry ± profit_threshold, where both distances are start_price · pct/100
as computed once at initialization; advancedpnl derives the same shapes
from its reference price with per-side profit percents. -/
theorem C8_stop_order_prices :
    (∀ (cfg : StFillConfig) (s : StFillState) (e : FillEvent) (pct : ℚ),
      e.X = "FILLED" → e.o = "MARKET" →
      lookupPending s.pending_market_orders e.i = some "LONG" →
      cfg.stop_loss_percent = some pct →
      (stHandleOrderFill cfg s e).2 =
        [Act.submitStopLoss (e.ap - cfg.start_price * (pct / 100)),
         Act.submitTrailing (e.ap + cfg.start_price * (cfg.profit_threshold_percent / 100))]) ∧
    (∀ (cfg : StFillConfig) (s : StFillState) (e : FillEvent) (pct : ℚ),
      e.X = "FILLED" → e.o = "MARKET" →
      lookupPending s.pending_market_orders e.i = some "SHORT" →
      cfg.stop_loss_percent = some pct →
      (stHandleOrderFill cfg s e).2 =
        [Act.submitStopLoss (e.ap + cfg.start_price * (pct / 100)),
         Act.submitTrailing (e.ap - cfg.start_price * (cfg.profit_threshold_percent / 100))]) ∧
    (∀ (cfg : ApFillConfig) (s : ApFillState) (e : FillEvent) (pct : ℚ),
      e.X = "FILLED" → s.closing_period = false → e.o = "MARKET" →
      lookupPending s.st_pending_market_orders e.i = some "LONG" →
      cfg.st_stop_loss_percent = some pct →
      ¬cfg.reference_price * (pct / 100) = 0 →
      (apHandleOrderFill cfg s e).2 =
        [Act.submitStopLoss (e.ap - cfg.reference_price * (pct / 100)),
         Act.submitTrailing (e.ap + apStLongProfitThresholdValue cfg),
         Act.refreshCache]) ∧
    (∀ (cfg : ApFillConfig) (s : ApFillState) (e : FillEvent) (pct : ℚ),
      e.X = "FILLED" → s.closing_period = false → e.o = "MARKET" →
      lookupPending s.st_pending_market_orders e.i = some "SHORT" →
      cfg.st_stop_loss_percent = some pct →
      ¬cfg.reference_price * (pct / 100) = 0 →
      (apHandleOrderFill cfg s e).2 =
        [Act.submitStopLoss (e.ap + cfg.reference_price * (pct / 100)),
         Act.submitTrailing (e.ap - apStShortProfitThresholdValue cfg),
         Act.refreshCache]) := by
  refine ⟨?_, ?_, ?_, ?_⟩
  · intro cfg s e pct hX ho hp hsl
    simp [stHandleOrderFill, stHandleMarketFill, hX, ho, hp, hsl,
      stCreateStopOrdersActs, stProfitThresholdPrice]
  · intro cfg s e pct hX ho hp hsl
    simp [stHandleOrderFill, stHandleMarketFill, hX, ho, hp, hsl,
      stCreateStopOrdersActs, stProfitThresholdPrice]
  · intro cfg s e pct hX hcp ho hp hsl hv
    simp [apHandleOrderFill, hX, hcp, ho, hp, hsl, apCreateStStopOrdersActs,
      apStStopLossValue, hv]
  · intro cfg s e pct hX hcp ho hp hsl hv
    simp [apHandleOrderFill, hX, hcp, ho, hp, hsl, apCreateStStopOrdersActs,
      apStStopLossValue, hv]

/-- C8 witness: start price 100, profit 2 percent, stop-loss 1 percent,
LONG entry filled at 103. -/
theorem C8_stop_order_prices_witness :
    (stHandleOrderFill ⟨100, 2, some 1⟩
        ⟨[("5", "LONG")], [], 1, [], []⟩
        ⟨"5", "FILLED", "MARKET", "MARKET", "LONG", "BUY", 103, 1, 0⟩).2 =
      [Act.submitStopLoss (103 - 100 * (1 / 100)),
       Act.submitTrailing (103 + 100 * (2 / 100))] :=
  C8_stop_order_prices.1 ⟨100, 2, some 1⟩ ⟨[("5", "LONG")], [], 1, [], []⟩
    ⟨"5", "FILLED", "MARKET", "MARKET", "LONG", "BUY", 103, 1, 0⟩ 1
    rfl rfl rfl rfl

/-! ## C9: which protective orders are submitted -/

/-- C9 counterexample: in simpletrends with stop_loss_percent unset, a
confirmed entry fill records the order but submits no protective orders
at all — in particular no trailing stop. -/
theorem C9_counterexample :
    (stHandleOrderFill ⟨100, 2, none⟩
        ⟨[("5", "LONG")], [], 1, [], []⟩
        ⟨"5", "FILLED", "MARKET", "MARKET", "LONG", "BUY", 103, 1, 0⟩).2 = [] ∧
    (stHandleOrderFill ⟨100, 2, none⟩
        ⟨[("5", "LONG")], [], 1, [], []⟩
        ⟨"5", "FILLED", "MARKET", "MARKET", "LONG", "BUY", 103, 1, 0⟩).1.orders.length = 1 := by
  constructor <;> rfl

/-- C9 amended: in simpletrends the whole protective-order task is gated
on the stop-loss configuration — with stop_loss_percent unset a confirmed
entry fill submits nothing, and with it set both a stop-loss and a
trailing stop are submitted; in advancedpnl a trailing stop is always
submitted for a confirmed ST entry fill, and a stop-loss additionally
exactly when a nonzero stop-loss value is configured. -/
theorem C9_amended :
    (∀ (cfg : StFillConfig) (s : StFillState) (e : FillEvent),
      e.X = "FILLED" → e.o = "MARKET" →
      (lookupPending s.pending_market_orders e.i).isSome →
      cfg.stop_loss_percent = none →
      (stHandleOrderFill cfg s e).2 = []) ∧
    (∀ (cfg : StFillConfig) (s : StFillState) (e : FillEvent) (pct : ℚ),
      e.X = "FILLED" → e.o = "MARKET" →
      (lookupPending s.pending_market_orders e.i).isSome →
      cfg.stop_loss_percent = some pct →
      ∃ a b, (stHandleOrderFill cfg s e).2 =
        [Act.submitStopLoss a, Act.submitTrailing b]) ∧
    (∀ (cfg : ApFillConfig) (s : ApFillState) (e : FillEvent),
      e.X = "FILLED" → s.closing_period = false → e.o = "MARKET" →
      (lookupPending s.st_pending_market_orders e.i).isSome →
      ((∃ b, Act.submitTrailing b ∈ (apHandleOrderFill cfg s e).2) ∧
       (∀ (v : ℚ), apStStopLossValue cfg = some v → ¬v = 0 →
         ∃ a, Act.submitStopLoss a ∈ (apHandleOrderFill cfg s e).2) ∧
       (apStStopLossValue cfg = none →
         ∀ a, Act.submitStopLoss a ∉ (apHandleOrderFill cfg s e).2) ∧
       (apStStopLossValue cfg = some 0 →
         ∀ a, Act.submitStopLoss a ∉ (apHandleOrderFill cfg s e).2))) := by
  refine ⟨?_, ?_, ?_⟩
  · intro cfg s e hX ho hp hsl
    simp [stHandleOrderFill, stHandleMarketFill, hX, ho, hp, hsl]
  · intro cfg s e pct hX ho hp hsl
    by_cases hside : (lookupPending s.pending_market_orders e.i).getD "" = "LONG" <;>
      simp [stHandleOrderFill, stHandleMarketFill, hX, ho, hp, hsl,
        stCreateStopOrdersActs, hside] <;>
      exact ⟨_, _, rfl⟩
  · intro cfg s e hX hcp ho hp
    have hacts : (apHandleOrderFill cfg s e).2 =
        apCreateStStopOrdersActs cfg
          ((lookupPending s.st_pending_market_orders e.i).getD "") e.ap ++
          [Act.refreshCache] := by
      simp [apHandleOrderFill, hX, hcp, ho, hp]
    refine ⟨?_, ?_, ?_, ?_⟩
    · by_cases hside : (lookupPending s.st_pending_market_orders e.i).getD "" = "LONG" <;>
        rw [hacts] <;> simp [apCreateStStopOrdersActs, hside] <;>
        rcases hv : apStStopLossValue cfg with _ | v <;> simp [hv] <;>
        by_cases hz : v = 0 <;> simp [hz]
    · intro v hv hvz
      by_cases hside : (lookupPending s.st_pending_market_orders e.i).getD "" = "LONG" <;>
        rw [hacts] <;> simp [apCreateStStopOrdersActs, hside, hv, hvz]
    · intro hv a
      by_cases hside : (lookupPending s.st_pending_market_orders e.i).getD "" = "LONG" <;>
        rw [hacts] <;> simp [apCreateStStopOrdersActs, hside, hv]
    · intro hv a
      by_cases hside : (lookupPending s.st_pending_market_orders e.i).getD "" = "LONG" <;>
        rw [hacts] <;> simp [apCreateStStopOrdersActs, hside, hv]

/-- C9 amended witness: simpletrends with stop-loss 1 percent submits
both protective orders for the confirmed fill at 103. -/
theorem C9_amended_witness :
    ∃ a b, (stHandleOrderFill ⟨100, 2, some 1⟩
        ⟨[("5", "LONG")], [], 1, [], []⟩
        ⟨"5", "FILLED", "MARKET", "MARKET", "LONG", "BUY", 103, 1, 0⟩).2 =
      [Act.submitStopLoss a, Act.submitTrailing b] :=
  C9_amended.2.1 ⟨100, 2, some 1⟩ ⟨[("5", "LONG")], [], 1, [], []⟩
    ⟨"5", "FILLED", "MARKET", "MARKET", "LONG", "BUY", 103, 1, 0⟩ 1
    rfl rfl (by rfl) rfl

/-! ## C10: non-FILLED events are a no-op -/

/-- C10: for any order event whose status field is not FILLED, both
handle_order_fill implementations return with the entire strategy state
unchanged and perform no external action. -/
theorem C10_non_filled_noop :
    (∀ (cfg : StFillConfig) (s : StFillState) (e : FillEvent),
      e.X ≠ "FILLED" → stHandleOrderFill cfg s e = (s, [])) ∧
    (∀ (cfg : ApFillConfig) (s : ApFillState) (e : FillEvent),
      e.X ≠ "FILLED" → apHandleOrderFill cfg s e = (s, [])) := by
  constructor
  · intro cfg s e h
    simp [stHandleOrderFill, h]
  · intro cfg s e h
    simp [apHandleOrderFill, h]

/-- C10 witness: a NEW-status event leaves the simpletrends state
untouched. -/
theorem C10_non_filled_noop_witness :
    stHandleOrderFill ⟨100, 2, none⟩ ⟨[("5", "LONG")], [], 1, [], []⟩
        ⟨"5", "NEW", "MARKET", "MARKET", "LONG", "BUY", 0, 0, 0⟩ =
      (⟨[("5", "LONG")], [], 1, [], []⟩, []) :=
  C10_non_filled_noop.1 ⟨100, 2, none⟩ ⟨[("5", "LONG")], [], 1, [], []⟩
    ⟨"5", "NEW", "MARKET", "MARKET", "LONG", "BUY", 0, 0, 0⟩ (by decide)

/-! ## C5: unmatched and duplicate fill events -/

/-- Deleting a key from the pending map makes its lookup fail. -/
theorem lookupPending_filter_self (l : List (String × String)) (k : String) :
    lookupPending (l.filter (fun p => decide (¬p.1 = k))) k = none := by
  induction l with
  | nil => rfl
  | cons a l ih =>
    by_cases ha : a.1 = k <;>
      simp [List.filter_cons, ha, lookupPending, List.find?] <;>
      simpa [lookupPending] using ih

/-- find? commutes with mapping a function that does not change the
predicate. -/
theorem find?_map_pred_invariant {α : Type} (g : α → α) (p : α → Bool)
    (hp : ∀ a, p (g a) = p a) (l : List α) :
    (l.map g).find? p = (l.find? p).map g := by
  induction l with
  | nil => rfl
  | cons a l ih =>
    by_cases h : p a
    · simp [List.find?, hp, h]
    · simp [List.find?, hp, h, ih]

/-- Closing a row keeps its identifiers and side. -/
theorem closeDbOrder_id (ep pnl : ℚ) (r : String) (tid : Nat) (o : DbOrder) :
    (closeDbOrder ep pnl r tid o).id = o.id := by
  unfold closeDbOrder; split <;> rfl

theorem closeDbOrder_side (ep pnl : ℚ) (r : String) (tid : Nat) (o : DbOrder) :
    (closeDbOrder ep pnl r tid o).side = o.side := by
  unfold closeDbOrder; split <;> rfl

/-- Closing a row does not change the lookup predicate of
get_order_by_binance_id. -/
theorem closeDbOrder_pred (ep pnl : ℚ) (r : String) (tid : Nat) (x : String)
    (o : DbOrder) :
    (decide ((closeDbOrder ep pnl r tid o).order_id = x ∨
      (closeDbOrder ep pnl r tid o).stop_loss_order_id = some x ∨
      (closeDbOrder ep pnl r tid o).trailing_stop_order_id = some x)) =
    (decide (o.order_id = x ∨ o.stop_loss_order_id = some x ∨
      o.trailing_stop_order_id = some x)) := by
  unfold closeDbOrder; split <;> rfl

/-- Closing a row twice with the same data equals closing it once. -/
theorem closeDbOrder_idem (ep pnl : ℚ) (r : String) (tid : Nat) (o : DbOrder) :
    closeDbOrder ep pnl r tid (closeDbOrder ep pnl r tid o) =
      closeDbOrder ep pnl r tid o := by
  by_cases h : o.id = tid <;> simp [closeDbOrder, h]

/-- get_order_by_binance_id after a database close returns the closed
version of the order it returned before. -/
theorem stGet_map_close (orders : List DbOrder) (x : String) (ep pnl : ℚ)
    (r : String) (tid : Nat) :
    stGetOrderByBinanceId (orders.map (closeDbOrder ep pnl r tid)) x =
      (stGetOrderByBinanceId orders x).map (closeDbOrder ep pnl r tid) := by
  unfold stGetOrderByBinanceId
  exact find?_map_pred_invariant _ _ (fun o => closeDbOrder_pred ep pnl r tid x o) orders

/-- Filtering with the same predicate twice equals filtering once. -/
theorem filter_self_idem {α : Type} (p : α → Bool) (l : List α) :
    (l.filter p).filter p = l.filter p := by
  induction l with
  | nil => rfl
  | cons a l ih =>
    by_cases h : p a <;> simp [List.filter_cons, h, ih]

/-- Mapping the same database close twice equals mapping it once. -/
theorem map_closeDbOrder_idem (ep pnl : ℚ) (r : String) (tid : Nat)
    (l : List DbOrder) :
    (l.map (closeDbOrder ep pnl r tid)).map (closeDbOrder ep pnl r tid) =
      l.map (closeDbOrder ep pnl r tid) := by
  induction l with
  | nil => rfl
  | cons a l ih => simp [closeDbOrder_idem, ih]

/-- Re-delivering a stop fill to the already-closed state reproduces the
same state. -/
theorem stHandleStopFill_idem (s : StFillState) (e : FillEvent) (db_order : DbOrder) :
    stGetOrderByBinanceId (stHandleStopFill s e db_order).1.orders e.i =
      (stGetOrderByBinanceId s.orders e.i).map
        (closeDbOrder e.ap e.rp
          (if e.ot = "STOP_MARKET" then "STOP_LOSS" else "TRAILING_STOP") db_order.id) ∧
    (stHandleStopFill (stHandleStopFill s e db_order).1 e
        (closeDbOrder e.ap e.rp
          (if e.ot = "STOP_MARKET" then "STOP_LOSS" else "TRAILING_STOP") db_order.id
          db_order)).1 =
      (stHandleStopFill s e db_order).1 := by
  constructor
  · exact stGet_map_close s.orders e.i e.ap e.rp _ db_order.id
  · simp only [stHandleStopFill, closeDbOrder_id, closeDbOrder_side]
    simp only [StFillState.mk.injEq]
    refine ⟨trivial, ?_, trivial, ?_, ?_⟩
    · exact map_closeDbOrder_idem _ _ _ _ _
    · by_cases hs : db_order.side = "LONG" <;> simp [hs, filter_self_idem]
    · by_cases hs : db_order.side = "SHORT" <;> simp [hs, filter_self_idem]

/-- C5: a fill event whose order id matches neither the pending map nor
any recorded order leaves the simpletrends strategy state unchanged and
performs no action; and delivering the same fill event twice (with entry
events carrying original type MARKET, as venue market entries do) leaves
the state after the second delivery identical to the state after the
first — one order record, one cache entry, no double transition. -/
theorem C5_fill_idempotent :
    (∀ (cfg : StFillConfig) (s : StFillState) (e : FillEvent),
      lookupPending s.pending_market_orders e.i = none →
      stGetOrderByBinanceId s.orders e.i = none →
      stHandleOrderFill cfg s e = (s, [])) ∧
    (∀ (cfg : StFillConfig) (s : StFillState) (e : FillEvent),
      ((lookupPending s.pending_market_orders e.i).isSome → e.ot = "MARKET") →
      (stHandleOrderFill cfg (stHandleOrderFill cfg s e).1 e).1 =
        (stHandleOrderFill cfg s e).1) := by
  constructor
  · intro cfg s e h1 h2
    by_cases hX : e.X = "FILLED"
    · simp [stHandleOrderFill, hX, h1, h2]
    · simp [stHandleOrderFill, hX]
  · intro cfg s e hwf
    by_cases hX : e.X = "FILLED"
    · by_cases hM : e.o = "MARKET" ∧ (lookupPending s.pending_market_orders e.i).isSome
      · have hot : e.ot = "MARKET" := hwf hM.2
        have h1 : stHandleOrderFill cfg s e = stHandleMarketFill cfg s e := by
          simp [stHandleOrderFill, hX, hM]
        have hlk : lookupPending
            (stHandleMarketFill cfg s e).1.pending_market_orders e.i = none :=
          lookupPending_filter_self s.pending_market_orders e.i
        have hnm : ¬(e.o = "MARKET" ∧
            (lookupPending (stHandleMarketFill cfg s e).1.pending_market_orders e.i).isSome) := by
          simp [hlk]
        have hns : ¬(e.ot = "STOP_MARKET" ∨ e.ot = "TRAILING_STOP_MARKET") := by
          rw [hot]; decide
        rw [h1]
        simp [stHandleOrderFill, hX, hnm, hns]
      · by_cases hS : e.ot = "STOP_MARKET" ∨ e.ot = "TRAILING_STOP_MARKET"
        · cases hfind : stGetOrderByBinanceId s.orders e.i with
          | none =>
            have h1 : stHandleOrderFill cfg s e = (s, []) := by
              simp [stHandleOrderFill, hX, hM, hS, hfind]
            simp [h1]
          | some db_order =>
            have h1 : stHandleOrderFill cfg s e = stHandleStopFill s e db_order := by
              simp [stHandleOrderFill, hX, hM, hS, hfind]
            have hidem := stHandleStopFill_idem s e db_order
            have hfind2 : stGetOrderByBinanceId
                (stHandleStopFill s e db_order).1.orders e.i =
                some (closeDbOrder e.ap e.rp
                  (if e.ot = "STOP_MARKET" then "STOP_LOSS" else "TRAILING_STOP")
                  db_order.id db_order) := by
              rw [hidem.1, hfind]; rfl
            have hnm2 : ¬(e.o = "MARKET" ∧
                (lookupPending
                  (stHandleStopFill s e db_order).1.pending_market_orders e.i).isSome) := by
              intro hc
              exact hM ⟨hc.1, hc.2⟩
            rw [h1]
            simp only [stHandleOrderFill]
            rw [if_neg (by simp [hX]), if_neg hnm2, if_pos hS, hfind2]
            exact hidem.2
        · have h1 : stHandleOrderFill cfg s e = (s, []) := by
            simp [stHandleOrderFill, hX, hM, hS]
          simp [h1]
    · have h1 : stHandleOrderFill cfg s e = (s, []) := by
        simp [stHandleOrderFill, hX]
      simp [h1]

/-- C5 witness: duplicate delivery of a concrete entry fill leaves the
post-first-delivery state unchanged. -/
theorem C5_fill_idempotent_witness :
    (stHandleOrderFill ⟨100, 2, some 1⟩
        (stHandleOrderFill ⟨100, 2, some 1⟩ ⟨[("5", "LONG")], [], 1, [], []⟩
          ⟨"5", "FILLED", "MARKET", "MARKET", "LONG", "BUY", 103, 1, 0⟩).1
        ⟨"5", "FILLED", "MARKET", "MARKET", "LONG", "BUY", 103, 1, 0⟩).1 =
      (stHandleOrderFill ⟨100, 2, some 1⟩ ⟨[("5", "LONG")], [], 1, [], []⟩
        ⟨"5", "FILLED", "MARKET", "MARKET", "LONG", "BUY", 103, 1, 0⟩).1 :=
  C5_fill_idempotent.2 ⟨100, 2, some 1⟩ ⟨[("5", "LONG")], [], 1, [], []⟩
    ⟨"5", "FILLED", "MARKET", "MARKET", "LONG", "BUY", 103, 1, 0⟩ (fun _ => rfl)

/-! ## C6: protective-order fills and mutual exclusion -/

/-- C6 counterexample: after a stop-loss fill closes order 1 (cancelling
trailing stop id 3), a later fill event for the trailing stop id is still
processed — get_order_by_binance_id has no status filter — rewriting the
row's close_reason to TRAILING_STOP and issuing another cancellation,
where the claim requires that no further close event be processed. -/
theorem C6_counterexample :
    Act.closeOrderRec 1 "TRAILING_STOP" ∈
      (stHandleOrderFill ⟨100, 2, some 1⟩
        (stHandleOrderFill ⟨100, 2, some 1⟩
          ⟨[], [⟨1, "LONG", 1, 100, "10", "OPEN", none, none, none, some "2", some "3"⟩],
            2, [⟨1, "LONG", "10", 1, 100⟩], []⟩
          ⟨"2", "FILLED", "MARKET", "STOP_MARKET", "LONG", "SELL", 99, 1, 0⟩).1
        ⟨"3", "FILLED", "MARKET", "TRAILING_STOP_MARKET", "LONG", "SELL", 99, 1, 0⟩).2 ∧
    (stHandleOrderFill ⟨100, 2, some 1⟩
        (stHandleOrderFill ⟨100, 2, some 1⟩
          ⟨[], [⟨1, "LONG", 1, 100, "10", "OPEN", none, none, none, some "2", some "3"⟩],
            2, [⟨1, "LONG", "10", 1, 100⟩], []⟩
          ⟨"2", "FILLED", "MARKET", "STOP_MARKET", "LONG", "SELL", 99, 1, 0⟩).1
        ⟨"3", "FILLED", "MARKET", "TRAILING_STOP_MARKET", "LONG", "SELL", 99, 1, 0⟩).1.orders.map
        (fun o => o.close_reason) = [some "TRAILING_STOP"] := by
  constructor <;> decide

/-- C6 amended: on a FILLED event whose original type is STOP_MARKET or
TRAILING_STOP_MARKET matching a recorded order, the order transitions to
CLOSED with close_reason STOP_LOSS respectively TRAILING_STOP, it is
removed from its side's open-orders cache, and a cancellation is issued
for the recorded sibling protective order; however the lookup does not
filter by status, so the close processing happens for a matched order of
any status — in particular a later close event for the same order is
processed again rather than ignored. -/
theorem C6_amended :
    ∀ (cfg : StFillConfig) (s : StFillState) (e : FillEvent) (ord : DbOrder),
      e.X = "FILLED" →
      ¬(e.o = "MARKET" ∧ (lookupPending s.pending_market_orders e.i).isSome) →
      (e.ot = "STOP_MARKET" ∨ e.ot = "TRAILING_STOP_MARKET") →
      stGetOrderByBinanceId s.orders e.i = some ord →
      ((∀ o ∈ (stHandleOrderFill cfg s e).1.orders, o.id = ord.id →
          o.status = "CLOSED" ∧ o.close_reason =
            some (if e.ot = "STOP_MARKET" then "STOP_LOSS" else "TRAILING_STOP")) ∧
       (ord.side = "LONG" →
          ∀ c ∈ (stHandleOrderFill cfg s e).1.open_orders_cache_long, ¬c.id = ord.id) ∧
       (ord.side = "SHORT" →
          ∀ c ∈ (stHandleOrderFill cfg s e).1.open_orders_cache_short, ¬c.id = ord.id) ∧
       (∀ t, e.ot = "STOP_MARKET" → ord.trailing_stop_order_id = some t →
          Act.cancelOrder t ∈ (stHandleOrderFill cfg s e).2) ∧
       (∀ t, e.ot = "TRAILING_STOP_MARKET" → ord.stop_loss_order_id = some t →
          Act.cancelOrder t ∈ (stHandleOrderFill cfg s e).2) ∧
       Act.closeOrderRec ord.id
         (if e.ot = "STOP_MARKET" then "STOP_LOSS" else "TRAILING_STOP") ∈
         (stHandleOrderFill cfg s e).2) := by
  intro cfg s e ord hX hM hS hfind
  have h1 : stHandleOrderFill cfg s e = stHandleStopFill s e ord := by
    simp [stHandleOrderFill, hX, hM, hS, hfind]
  rw [h1]
  refine ⟨?_, ?_, ?_, ?_, ?_, ?_⟩
  · intro o ho hid
    rcases List.mem_map.mp ho with ⟨o1, ho1, rfl⟩
    by_cases h : o1.id = ord.id
    · constructor <;> simp [closeDbOrder, h]
    · rw [closeDbOrder_id] at hid
      exact absurd hid h
  · intro hside c hc
    simp only [stHandleStopFill, hside] at hc
    have hc2 : c ∈ s.open_orders_cache_long ∧ ¬c.id = ord.id := by simpa using hc
    exact hc2.2
  · intro hside c hc
    simp only [stHandleStopFill, hside] at hc
    have hc2 : c ∈ s.open_orders_cache_short ∧ ¬c.id = ord.id := by simpa using hc
    exact hc2.2
  · intro t hot ht
    simp [stHandleStopFill, hot, ht]
  · intro t hot ht
    have hne : ¬(e.ot = "STOP_MARKET") := by rw [hot]; decide
    simp [stHandleStopFill, hne, ht]
  · simp [stHandleStopFill]

/-- C6 amended witness: a stop-loss fill for order id 2 closes recorded
order 1 and cancels the trailing stop id 3. -/
theorem C6_amended_witness :
    Act.closeOrderRec 1 "STOP_LOSS" ∈
      (stHandleOrderFill ⟨100, 2, some 1⟩
        ⟨[], [⟨1, "LONG", 1, 100, "10", "OPEN", none, none, none, some "2", some "3"⟩],
          2, [⟨1, "LONG", "10", 1, 100⟩], []⟩
        ⟨"2", "FILLED", "MARKET", "STOP_MARKET", "LONG", "SELL", 99, 1, 0⟩).2 := by
  have h := C6_amended ⟨100, 2, some 1⟩
    ⟨[], [⟨1, "LONG", 1, 100, "10", "OPEN", none, none, none, some "2", some "3"⟩],
      2, [⟨1, "LONG", "10", 1, 100⟩], []⟩
    ⟨"2", "FILLED", "MARKET", "STOP_MARKET", "LONG", "SELL", 99, 1, 0⟩
    ⟨1, "LONG", 1, 100, "10", "OPEN", none, none, none, some "2", some "3"⟩
    rfl (by decide) (Or.inl rfl) rfl
  simpa using h.2.2.2.2.2

end Trading
